import Mathlib

/-!
# Verification of the HRTF data-point normalisation core (`hrtfdata/datapoint.py`)

This file gives a shallow embedding of the grid-reconciliation, angle-selection,
signal-materialisation and anthropometry-lookup logic of `SofaDataPoint` and
`MatFileAnthropometryDataPoint`, and proves or refutes the frozen claims about it.

Floating-point numbers are idealised as rationals (`ℚ`); the magnitude-dB domain
transform, which is genuinely about real logarithms, is idealised over `ℝ`.
-/

attribute [local semireducible] Rat.add Rat.sub Rat.mul Rat.inv

/-- `np.isclose(a, b)` with the default tolerances `rtol = 1e-5`, `atol = 1e-8`:
`|a - b| ≤ atol + rtol * |b|`. -/
def npIsClose (a b : ℚ) : Bool :=
  |a - b| ≤ 1 / 100000000 + |b| / 100000

/-- Round-half-to-even on rationals, the rounding rule used by `np.round`. -/
def roundHalfEven (q : ℚ) : ℤ :=
  let n := ⌊q⌋
  let frac := q - n
  if frac < 1 / 2 then n
  else if 1 / 2 < frac then n + 1
  else if 2 ∣ n then n else n + 1

/-- `np.round(q, prec)`: round to `prec` decimal places (half to even). -/
def npRound (prec : ℕ) (q : ℚ) : ℚ :=
  (roundHalfEven (q * 10 ^ prec) : ℚ) / 10 ^ prec

/-- Modelled from the spec: `wrap_closed_open_interval(x, lo, hi)` from the
repository module `hrtfdata/util.py`, which is not part of the sources under
review.  The spec describes it as mapping any real `x` into `[lo, hi)` by
modular arithmetic, with `180 → -180`, `-180 → -180` and `200 → -160` for the
interval `[-180, 180)`. -/
def wrap_closed_open_interval (x lo hi : ℚ) : ℚ :=
  lo + (x - lo) - (hi - lo) * ⌊(x - lo) / (hi - lo)⌋

/-- `np.unique` on a list of rationals: sorted ascending, duplicates removed. -/
def npUnique (l : List ℚ) : List ℚ :=
  List.insertionSort (· ≤ ·) l.dedup

/-- `np.argmax(l == x)`: the first index of `l` whose entry equals `x`;
`0` when no entry matches (argmax of an all-`False` array). -/
def npArgmaxEq (x : ℚ) (l : List ℚ) : ℕ :=
  if l.any (fun y => y = x) then l.findIdx (fun y => y = x) else 0

/-- `boolMask.nonzero()[0]`: the ascending list of indices at which a boolean
mask is `true`. -/
def npNonzero (l : List Bool) : List ℕ :=
  ((List.range l.length).zip l).filterMap (fun p => if p.2 then some p.1 else none)

/-- The boolean selection mask over a grid axis built by
`SofaDataPoint._hrir_select_angles` (datapoint.py lines 78--90): `None` selects
every angle, an explicit request selects the angles `np.isclose` to at least one
requested value. -/
def angleSelectionMask (req : Option (List ℚ)) (allAngles : List ℚ) : List Bool :=
  match req with
  | none => allAngles.map (fun _ => true)
  | some angles => allAngles.map (fun a => angles.any (fun b => npIsClose a b))

/-- The exact error message raised by `_hrir_select_angles`. -/
def noMatchingAnglesMsg : String :=
  "None of the specified angles are available in this dataset"

/-- `SofaDataPoint._hrir_select_angles` (datapoint.py lines 77--99).
`positionMask r c k = true` means cell `(r, c, k)` is missing; `numRadii` is the
size of the radius axis.  Returns the selected row and column indices, or the
`ValueError` message when a requested angle set matches nothing. -/
def hrir_select_angles (rowAngles columnAngles : Option (List ℚ))
    (allRowAngles allColumnAngles : List ℚ)
    (positionMask : ℕ → ℕ → ℕ → Bool) (numRadii : ℕ) :
    Except String (List ℕ × List ℕ) :=
  let selectRow := angleSelectionMask rowAngles allRowAngles
  if rowAngles.isSome ∧ ¬ selectRow.any id then
    .error noMatchingAnglesMsg
  else
    let selectColumn := angleSelectionMask columnAngles allColumnAngles
    if columnAngles.isSome ∧ ¬ selectColumn.any id then
      .error noMatchingAnglesMsg
    else
      let candRows := npNonzero selectRow
      let candCols := npNonzero selectColumn
      let keepRow := candRows.map (fun r =>
        !(candCols.all (fun c => (List.range numRadii).all (fun k => positionMask r c k))))
      let keepCol := candCols.map (fun c =>
        !(candRows.all (fun r => (List.range numRadii).all (fun k => positionMask r c k))))
      .ok ((candRows.zip keepRow).filterMap (fun p => if p.2 then some p.1 else none),
           (candCols.zip keepCol).filterMap (fun p => if p.2 then some p.1 else none))

/-- Quantise raw positions as `_map_sofa_position_order_to_matrix` does
(datapoint.py lines 119--120): round all three coordinates to the dataset
precision, then wrap the row angle into `[-180, 180)`. -/
def quantisePositions (prec : ℕ) (ps : List (ℚ × ℚ × ℚ)) : List (ℚ × ℚ × ℚ) :=
  ps.map (fun p =>
    (wrap_closed_open_interval (npRound prec p.1) (-180) 180,
     npRound prec p.2.1, npRound prec p.2.2))

/-- One step of the vectorised assignment `position_mask[position_map] = False`:
set a single cell of a boolean mask to `false`. -/
def setFalseAt (m : ℕ → ℕ → ℕ → Bool) (cell : ℕ × ℕ × ℕ) : ℕ → ℕ → ℕ → Bool :=
  fun r c k => if r = cell.1 ∧ c = cell.2.1 ∧ k = cell.2.2 then false else m r c k

/-- `position_mask = all-True; position_mask[position_map] = False`
(datapoint.py lines 129--130). -/
def scatterMask (cells : List (ℕ × ℕ × ℕ)) : ℕ → ℕ → ℕ → Bool :=
  cells.foldl setFalseAt (fun _ _ _ => true)

/-- `np.sum(~position_mask[:, c], axis=0)` at radius `k`: the number of rows
whose cell at column `c` and radius `k` is non-missing. -/
def countNonMissing (m : ℕ → ℕ → ℕ → Bool) (c k numRows : ℕ) : ℕ :=
  ((List.range numRows).filter (fun r => m r c k = false)).length

/-- `(~position_mask[:, c]).argmax()`: `np.argmax` over the flattened
`(numRows, numRadii)` boolean array in row-major order; `0` if all cells are
missing. -/
def flatArgmaxNonMissing (m : ℕ → ℕ → ℕ → Bool) (c numRows numRadii : ℕ) : ℕ :=
  match (List.range (numRows * numRadii)).find?
      (fun i => m (i / numRadii) c (i % numRadii) = false) with
  | some i => i
  | none => 0

/-- The canonical grid produced by `SofaDataPoint._map_sofa_position_order_to_matrix`:
unique angles and radii, the missing-cell mask, the raw-index-to-cell map and the
pole-duplication bookkeeping. -/
structure SofaGrid where
  rowAngles : List ℚ
  columnAngles : List ℚ
  radii : List ℚ
  positionMask : ℕ → ℕ → ℕ → Bool
  positionMap : List (ℕ × ℕ × ℕ)
  singleStartMask : ℕ → Bool
  startPoleIdx : ℕ
  singleEndMask : ℕ → Bool
  endPoleIdx : ℕ

/-- `unique_row_angles = np.unique(quantised_positions[:, 0])` (line 121). -/
def uniqueRowAngles (prec : ℕ) (ps : List (ℚ × ℚ × ℚ)) : List ℚ :=
  npUnique ((quantisePositions prec ps).map (fun p => p.1))

/-- `unique_column_angles = np.unique(quantised_positions[:, 1])` (line 122). -/
def uniqueColumnAngles (prec : ℕ) (ps : List (ℚ × ℚ × ℚ)) : List ℚ :=
  npUnique ((quantisePositions prec ps).map (fun p => p.2.1))

/-- `unique_radii = np.unique(quantised_positions[:, 2])` (line 123). -/
def uniqueRadii (prec : ℕ) (ps : List (ℚ × ℚ × ℚ)) : List ℚ :=
  npUnique ((quantisePositions prec ps).map (fun p => p.2.2))

/-- The `position_map` loop of datapoint.py lines 124--127: each raw index is
sent to the triple of `np.argmax(value == unique_array)` indices of its three
rounded coordinates. -/
def positionMapCells (prec : ℕ) (ps : List (ℚ × ℚ × ℚ)) : List (ℕ × ℕ × ℕ) :=
  (quantisePositions prec ps).map (fun p =>
    (npArgmaxEq p.1 (uniqueRowAngles prec ps),
     npArgmaxEq p.2.1 (uniqueColumnAngles prec ps),
     npArgmaxEq p.2.2 (uniqueRadii prec ps)))

/-- `position_mask` right after lines 129--130, before pole resolution. -/
def basePositionMask (prec : ℕ) (ps : List (ℚ × ℚ × ℚ)) : ℕ → ℕ → ℕ → Bool :=
  scatterMask (positionMapCells prec ps)

/-- `np.isclose(unique_column_angles[-1], 90)` (line 133). -/
def endPoleClose (prec : ℕ) (ps : List (ℚ × ℚ × ℚ)) : Bool :=
  npIsClose ((uniqueColumnAngles prec ps).getD ((uniqueColumnAngles prec ps).length - 1) 0) 90

/-- `single_end_mask` (line 134): per radius, whether exactly one row is
non-missing at the last column; identically `False` when the last column angle
is not close to `90`. -/
def singleEndMaskOf (prec : ℕ) (ps : List (ℚ × ℚ × ℚ)) : ℕ → Bool :=
  fun k => endPoleClose prec ps &&
    decide (countNonMissing (basePositionMask prec ps)
      ((uniqueColumnAngles prec ps).length - 1) k (uniqueRowAngles prec ps).length = 1)

/-- `end_pole_idx` (line 135): the flat `argmax` of `~position_mask[:, -1]`
over `(rows, radii)` in row-major order; `0` when the pole check fails. -/
def endPoleIdxOf (prec : ℕ) (ps : List (ℚ × ℚ × ℚ)) : ℕ :=
  if endPoleClose prec ps then
    flatArgmaxNonMissing (basePositionMask prec ps)
      ((uniqueColumnAngles prec ps).length - 1)
      (uniqueRowAngles prec ps).length (uniqueRadii prec ps).length
  else 0

/-- `position_mask` after the line-136 update of the last column. -/
def maskAfterEndPole (prec : ℕ) (ps : List (ℚ × ℚ × ℚ)) : ℕ → ℕ → ℕ → Bool :=
  fun r c k =>
    if c = (uniqueColumnAngles prec ps).length - 1 ∧ singleEndMaskOf prec ps k then false
    else basePositionMask prec ps r c k

/-- `np.isclose(unique_column_angles[0], -90)` (line 140). -/
def startPoleClose (prec : ℕ) (ps : List (ℚ × ℚ × ℚ)) : Bool :=
  npIsClose ((uniqueColumnAngles prec ps).getD 0 0) (-90)

/-- `single_start_mask` (line 141), computed -- as in the code -- from the mask
already updated at the last column. -/
def singleStartMaskOf (prec : ℕ) (ps : List (ℚ × ℚ × ℚ)) : ℕ → Bool :=
  fun k => startPoleClose prec ps &&
    decide (countNonMissing (maskAfterEndPole prec ps) 0 k (uniqueRowAngles prec ps).length = 1)

/-- `start_pole_idx` (line 142). -/
def startPoleIdxOf (prec : ℕ) (ps : List (ℚ × ℚ × ℚ)) : ℕ :=
  if startPoleClose prec ps then
    flatArgmaxNonMissing (maskAfterEndPole prec ps) 0
      (uniqueRowAngles prec ps).length (uniqueRadii prec ps).length
  else 0

/-- `position_mask` as finally returned (after the line-143 update of the
first column). -/
def finalPositionMask (prec : ℕ) (ps : List (ℚ × ℚ × ℚ)) : ℕ → ℕ → ℕ → Bool :=
  fun r c k =>
    if c = 0 ∧ singleStartMaskOf prec ps k then false
    else maskAfterEndPole prec ps r c k

/-- `SofaDataPoint._map_sofa_position_order_to_matrix` (datapoint.py lines
119--148), starting from the coordinate-converted raw positions.  Builds the
unique sorted angle/radius arrays, locates every raw position by exact match of
its rounded coordinates (`np.argmax(value == unique_array)`), scatters `False`
into the all-`True` missing mask at every occupied cell, and then performs the
pole resolution: at the last column when its angle is `np.isclose` to `90`
(resp. the first column and `-90`), every radius at which exactly one row is
non-missing has its whole column marked non-missing, with the flat `argmax`
index of the first non-missing cell recorded as the pole source.  The `-90`
step reads the mask already updated by the `90` step, as the code does. -/
def map_sofa_position_order_to_matrix (prec : ℕ) (ps : List (ℚ × ℚ × ℚ)) : SofaGrid :=
  ⟨uniqueRowAngles prec ps, uniqueColumnAngles prec ps, uniqueRadii prec ps,
   finalPositionMask prec ps, positionMapCells prec ps,
   singleStartMaskOf prec ps, startPoleIdxOf prec ps,
   singleEndMaskOf prec ps, endPoleIdxOf prec ps⟩

/-- `hrir_matrix = np.empty(...); hrir_matrix[position_map] = hrirs`
(datapoint.py lines 205--206).  `init` stands for the undefined contents of
`np.empty`; `hrirs` is the per-raw-index list of impulse responses of the
selected ear, indexed by sample. -/
def scatterHrirs (cells : List (ℕ × ℕ × ℕ)) (hrirs : List (List ℚ))
    (init : ℕ → ℕ → ℕ → ℕ → ℚ) : ℕ → ℕ → ℕ → ℕ → ℚ :=
  (cells.zip hrirs).foldl
    (fun m p => fun r c k l =>
      if r = p.1.1 ∧ c = p.1.2.1 ∧ k = p.1.2.2 then p.2.getD l 0 else m r c k l)
    init

/-- The pole-replication assignments of `SofaDataPoint.hrir` (datapoint.py lines
207--208) for a single-radius grid, where the NumPy broadcast is exact: first
`hrir_matrix[:, 0] = np.where(single_start_mask, hrir_matrix[start_pole_idx, 0], ...)`,
then the same at the last column with `single_end_mask` and `end_pole_idx`,
reading the already-updated matrix. -/
def applyPoleReplication (g : SofaGrid) (m : ℕ → ℕ → ℕ → ℕ → ℚ) :
    ℕ → ℕ → ℕ → ℕ → ℚ :=
  let m1 : ℕ → ℕ → ℕ → ℕ → ℚ := fun r c k l =>
    if c = 0 ∧ g.singleStartMask k then m g.startPoleIdx 0 k l else m r c k l
  fun r c k l =>
    if c = g.columnAngles.length - 1 ∧ g.singleEndMask k then
      m1 g.endPoleIdx (g.columnAngles.length - 1) k l
    else m1 r c k l

/-- Errors that `SofaDataPoint.hrir` can surface: a `ValueError` actually
raised, or an `AttributeError` caused by calling `.astype` on a non-array
object. -/
inductive PyErr where
  | valueError : String → PyErr
  | attributeError : String → PyErr
deriving DecidableEq, Repr

/-- Python `str.startswith`, on the underlying character lists (kernel-reducible,
unlike `String.startsWith`). -/
def strStartsWith (s p : String) : Bool := p.data.isPrefixOf s.data

/-- Python `str.endswith`, on the underlying character lists. -/
def strEndsWith (s p : String) : Bool := p.data.reverse.isPrefixOf s.data.reverse

/-- The state of the local variable `hrir` in `SofaDataPoint.hrir` after the
domain dispatch: either a masked array (tagged with the domain that produced
it), or -- for an unknown domain -- the `ValueError` object that line 235
assigns to the variable instead of raising. -/
inductive HrirVarState where
  | maskedArray : String → HrirVarState
  | exceptionObject : String → HrirVarState
deriving DecidableEq, Repr

/-- The domain dispatch of `SofaDataPoint.hrir` (datapoint.py lines 218--235):
`time`, `complex`, `magnitude*` (with the `_db` variant) and `phase` produce
arrays; any other string makes line 235 store `ValueError(...)` in the result
variable without raising it. -/
def hrirDomainStep (domain : String) : HrirVarState :=
  if domain = "time" then .maskedArray "time"
  else if domain = "complex" then .maskedArray "complex"
  else if strStartsWith domain "magnitude" then
    (if strEndsWith domain "_db" then .maskedArray "magnitude_db"
     else .maskedArray "magnitude")
  else if domain = "phase" then .maskedArray "phase"
  else .exceptionObject ("Unknown domain " ++ domain ++ " for HRIR")

/-- The ear-channel selection of `SofaDataPoint.hrir` (datapoint.py line 199):
`0 if side.endswith('left') else 1`, with no validation of `side`. -/
def hrirSideChannel (side : String) : ℕ :=
  if strEndsWith side "left" then 0 else 1

/-- The argument-handling skeleton of `SofaDataPoint.hrir` (datapoint.py lines
199, 218--250): channel selection by `side` suffix, domain dispatch, the
complex-dtype check of line 236, the `.astype` call of line 238 (which blows up
with an `AttributeError` when the variable holds the unraised `ValueError`
object of line 235), and the mirroring flag from the `side` prefix.  The result
records the channel read from the file, the domain transform applied, and
whether the output was mirrored. -/
def hrirCall (side domain : String) (dtypeIsComplex : Bool) :
    Except PyErr (ℕ × String × Bool) :=
  let channel := hrirSideChannel side
  let v := hrirDomainStep domain
  if domain = "complex" ∧ dtypeIsComplex = false then
    .error (.valueError "An HRTF in the complex domain requires the dtype to be set to a complex type")
  else
    match v with
    | .exceptionObject msg =>
        .error (.attributeError ("ValueError object has no attribute astype: " ++ msg))
    | .maskedArray tag => .ok (channel, tag, strStartsWith side "mirrored")

/-- `np.squeeze` at the level of array shapes: every axis of extent `1` is
removed. -/
def npSqueezeShape (shape : List ℕ) : List ℕ :=
  shape.filter (fun d => d ≠ 1)

/-- The shape effect of `np.squeeze(hrir.astype(self.dtype))` (datapoint.py line
238) on the selected `(rows, columns, radii, samples)` array. -/
def hrirOutputShape (numRows numCols numRadii numSamples : ℕ) : List ℕ :=
  npSqueezeShape [numRows, numCols, numRadii, numSamples]

/-- `np.flipud`: reverse along the first axis. -/
def npFlipud (m : List α) : List α := m.reverse

/-- `np.fliplr`: reverse along the second axis. -/
def npFliplr (m : List (List α)) : List (List α) := m.map List.reverse

/-- The mirroring step of `SofaDataPoint.hrir` (datapoint.py lines 239--249) on
a rows-by-columns array: interaural layout flips the columns unconditionally;
spherical layout keeps the first row fixed and reverses the remainder when the
first selected azimuth is `np.isclose` to `-180`, and reverses all rows
otherwise. -/
def mirrorHrir (interauralLayout : Bool) (selectedAzimuths : List ℚ)
    (m : List (List α)) : List (List α) :=
  if interauralLayout then npFliplr m
  else if npIsClose (selectedAzimuths.headD 0) (-180) then
    m.take 1 ++ npFlipud (m.drop 1)
  else npFlipud m

noncomputable section

/-- `np.max` of a list of reals (the maximal element; callers never pass an
empty array). -/
def npMax (l : List ℝ) : ℝ := l.foldl max (l.headD 0)

/-- `np.clip(x, lo, None)`: clip from below. -/
def npClipMin (x lo : ℝ) : ℝ := max x lo

/-- The `magnitude_db` branch of `SofaDataPoint.hrir` (datapoint.py lines
226--229), as a function of the spectral magnitudes and of the resolution of
the output numeric type:
`min_magnitude = np.max(magnitudes) * resolution;`
`20 * np.log10(np.clip(magnitudes, min_magnitude, None))`. -/
def magnitudeDbTransform (resolution : ℝ) (magnitudes : List ℝ) : List ℝ :=
  let minMagnitude := npMax magnitudes * resolution
  magnitudes.map (fun m => 20 * Real.logb 10 (npClipMin m minMagnitude))

end

/-- One row of the CIPIC-style anthropometry table read by
`MatFileAnthropometryDataPoint`: the `X` (head/torso), `D` (pinna sizes,
left then right), `theta` (pinna angles, left then right), weight, age and sex
columns at one subject.  Unavailable numeric entries (`NaN`) are `none`. -/
structure AnthRecord where
  id : ℤ
  X : List (Option ℚ)
  D : List (Option ℚ)
  theta : List (Option ℚ)
  weightKilograms : Option ℚ
  age : Option ℚ
  sex : String
deriving DecidableEq, Repr

/-- The tuple `select_all` of `MatFileAnthropometryDataPoint.anthropomorphic_data`. -/
def anthSelectAll : List String :=
  ["head-torso", "pinna-size", "pinna-angle", "weight", "age", "sex"]

/-- The sex encoding of datapoint.py line 307: `M` is `0`, `F` is `1`, anything
else is `NaN`. -/
def sexToValue (s : String) : Option ℚ :=
  if s = "M" then some 0 else if s = "F" then some 1 else none

/-- The data gathering of `MatFileAnthropometryDataPoint.anthropomorphic_data`
(datapoint.py lines 288--309) for one subject record, a validated side string
and a validated selection: the concatenation (`np.hstack`) of the selected
columns in the fixed order head-torso, left pinna size, left pinna angle,
right pinna size, right pinna angle, weight, age, sex. -/
def selectedAnthData (r : AnthRecord) (sideStr : String) (select : List String) :
    List (Option ℚ) :=
  (if "head-torso" ∈ select then r.X else []) ++
  (if (sideStr = "left" ∨ strStartsWith sideStr "both") ∧ "pinna-size" ∈ select then
    r.D.take 8 else []) ++
  (if (sideStr = "left" ∨ strStartsWith sideStr "both") ∧ "pinna-angle" ∈ select then
    r.theta.take 2 else []) ++
  (if (sideStr = "right" ∨ strStartsWith sideStr "both") ∧ "pinna-size" ∈ select then
    r.D.drop 8 else []) ++
  (if (sideStr = "right" ∨ strStartsWith sideStr "both") ∧ "pinna-angle" ∈ select then
    r.theta.drop 2 else []) ++
  (if "weight" ∈ select then [r.weightKilograms] else []) ++
  (if "age" ∈ select then [r.age] else []) ++
  (if "sex" ∈ select then [sexToValue r.sex] else [])

/-- `MatFileAnthropometryDataPoint.anthropomorphic_data` (datapoint.py lines
267--312).  `none` for `select` means the full default selection; a string
argument in Python becomes a one-element list here.  The side check of line 277
runs before anything else (the selection-relevance shortcut is commented out in
the source); then the unknown-selection check, then the subject lookup, then
the all-`NaN` check on the gathered data. -/
def anthropomorphic_data (anth : List AnthRecord) (subjectId : ℤ)
    (side : Option String) (select : Option (List String)) :
    Except PyErr (List (Option ℚ)) :=
  let sel := match select with
    | none => anthSelectAll
    | some l => l
  if ¬ (side = some "left" ∨ side = some "right" ∨ side = some "both") then
    .error (.valueError "Unknown side selector")
  else if (sel.filter (fun s => ¬ s ∈ anthSelectAll)) ≠ [] then
    .error (.valueError "Unknown selection")
  else
    match anth.find? (fun r => r.id = subjectId) with
    | none => .error (.valueError "Subject id has no anthropomorphic measurements")
    | some r =>
      let data := selectedAnthData r (side.getD "") sel
      if data.all (fun x => x = none) then
        .error (.valueError "Subject id has no data available for selection")
      else .ok data

/-- Decidable equality of `Except` results, for evaluating the embeddings at
concrete inputs. -/
instance {e a : Type} [DecidableEq e] [DecidableEq a] : DecidableEq (Except e a)
  | .error x, .error y => decidable_of_iff (x = y) (by simp)
  | .error _, .ok _ => isFalse (by simp)
  | .ok _, .error _ => isFalse (by simp)
  | .ok x, .ok y => decidable_of_iff (x = y) (by simp)

/-! ## Helper lemmas -/

lemma zipSelect_eq_filter {α : Type} (xs : List α) (f : α → Bool) :
    ((xs.zip (xs.map f)).filterMap (fun p => if p.2 then some p.1 else none)) = xs.filter f := by
  induction xs with
  | nil => rfl
  | cons a as ih =>
    simp only [List.map_cons, List.zip_cons_cons, List.filterMap_cons, List.filter_cons]
    cases h : f a <;> simp [h, ih]

lemma filterMap_pick_sublist {α : Type} (xs : List α) (l : List Bool) :
    (((xs.zip l).filterMap (fun p => if p.2 then some p.1 else none))).Sublist xs := by
  induction xs generalizing l with
  | nil => simp
  | cons a as ih =>
    cases l with
    | nil => simp
    | cons b bs =>
      cases b
      · simpa using List.Sublist.cons a (ih bs)
      · simpa using List.Sublist.cons₂ a (ih bs)

lemma npNonzero_sublist_range (l : List Bool) : (npNonzero l).Sublist (List.range l.length) :=
  filterMap_pick_sublist _ _

lemma npNonzero_sorted (l : List Bool) : List.Pairwise (· < ·) (npNonzero l) :=
  List.Pairwise.sublist (npNonzero_sublist_range l) (List.pairwise_lt_range _)

lemma npNonzero_map {α : Type} (d : α) (xs : List α) (f : α → Bool) :
    npNonzero (xs.map f) = (List.range xs.length).filter (fun i => f (xs.getD i d)) := by
  unfold npNonzero
  rw [List.length_map]
  induction xs with
  | nil => rfl
  | cons a as ih =>
    rw [List.length_cons, List.range_succ_eq_map, List.map_cons, List.zip_cons_cons,
      List.filterMap_cons, List.filter_cons]
    have hz : (List.zip (List.map Nat.succ (List.range as.length)) (as.map f)).filterMap
        (fun p => if p.2 then some p.1 else none)
        = List.map Nat.succ ((List.zip (List.range as.length) (as.map f)).filterMap
            (fun p => if p.2 then some p.1 else none)) := by
      rw [List.zip_map_left, List.filterMap_map, List.map_filterMap]
      refine List.filterMap_congr (fun p _ => ?_)
      cases hp : p.2 <;> simp [hp, Prod.map]
    have hr : (List.map Nat.succ (List.range as.length)).filter
          (fun i => f ((a :: as).getD i d))
        = List.map Nat.succ ((List.range as.length).filter (fun i => f (as.getD i d))) := by
      rw [List.filter_map]
      rfl
    rw [hz, ih, hr, List.getD_cons_zero]
    cases h : f a
    · rfl
    · rfl

lemma mem_npNonzero_map {α : Type} {d : α} {xs : List α} {f : α → Bool} {i : ℕ} :
    i ∈ npNonzero (xs.map f) ↔ i < xs.length ∧ f (xs.getD i d) = true := by
  rw [npNonzero_map d xs f, List.mem_filter, List.mem_range]

lemma setFalseAt_false_iff (m : ℕ → ℕ → ℕ → Bool) (cell : ℕ × ℕ × ℕ) (r c k : ℕ) :
    setFalseAt m cell r c k = false ↔ (r, c, k) = cell ∨ m r c k = false := by
  unfold setFalseAt
  constructor
  · intro hf
    by_cases h : r = cell.1 ∧ c = cell.2.1 ∧ k = cell.2.2
    · exact Or.inl (by obtain ⟨h1, h2, h3⟩ := h; rw [h1, h2, h3])
    · exact Or.inr (by rwa [if_neg h] at hf)
  · rintro (h | h)
    · rw [if_pos (by rw [← h]; exact ⟨rfl, rfl, rfl⟩)]
    · by_cases hc : r = cell.1 ∧ c = cell.2.1 ∧ k = cell.2.2
      · rw [if_pos hc]
      · rwa [if_neg hc]

lemma foldl_setFalseAt_false_iff (cells : List (ℕ × ℕ × ℕ)) (m : ℕ → ℕ → ℕ → Bool)
    (r c k : ℕ) :
    (cells.foldl setFalseAt m) r c k = false ↔ (r, c, k) ∈ cells ∨ m r c k = false := by
  induction cells generalizing m with
  | nil => simp
  | cons cell cs ih =>
    rw [List.foldl_cons, ih, setFalseAt_false_iff, List.mem_cons]
    tauto

lemma scatterMask_false_iff (cells : List (ℕ × ℕ × ℕ)) (r c k : ℕ) :
    scatterMask cells r c k = false ↔ (r, c, k) ∈ cells := by
  unfold scatterMask
  rw [foldl_setFalseAt_false_iff]
  simp

lemma npUnique_perm (l : List ℚ) : (npUnique l).Perm l.dedup :=
  List.perm_insertionSort _ _

lemma npUnique_nodup (l : List ℚ) : (npUnique l).Nodup :=
  ((npUnique_perm l).nodup_iff).mpr l.nodup_dedup

lemma mem_npUnique {x : ℚ} {l : List ℚ} : x ∈ npUnique l ↔ x ∈ l := by
  rw [(npUnique_perm l).mem_iff, List.mem_dedup]

lemma npArgmaxEq_lt_length {x : ℚ} {l : List ℚ} (hx : x ∈ l) :
    npArgmaxEq x l < l.length := by
  have hany : l.any (fun y => decide (y = x)) = true := by
    simp only [List.any_eq_true, decide_eq_true_eq]
    exact ⟨x, hx, rfl⟩
  unfold npArgmaxEq
  rw [if_pos hany]
  exact List.findIdx_lt_length_of_exists ⟨x, hx, by simp⟩

lemma npArgmaxEq_getD {x : ℚ} {l : List ℚ} (hx : x ∈ l) :
    l.getD (npArgmaxEq x l) 0 = x := by
  have hany : l.any (fun y => decide (y = x)) = true := by
    simp only [List.any_eq_true, decide_eq_true_eq]
    exact ⟨x, hx, rfl⟩
  have hlt : l.findIdx (fun y => y = x) < l.length :=
    List.findIdx_lt_length_of_exists ⟨x, hx, by simp⟩
  unfold npArgmaxEq
  rw [if_pos hany]
  have := @List.findIdx_getElem _ (fun y => decide (y = x)) l hlt
  rw [List.getD_eq_getElem?_getD, List.getElem?_eq_getElem hlt]
  simpa using this

lemma hrir_select_angles_ok (ra ca : Option (List ℚ)) (allRow allCol : List ℚ)
    (mask : ℕ → ℕ → ℕ → Bool) (K : ℕ)
    (h1 : ¬ (ra.isSome ∧ ¬ (angleSelectionMask ra allRow).any id))
    (h2 : ¬ (ca.isSome ∧ ¬ (angleSelectionMask ca allCol).any id)) :
    hrir_select_angles ra ca allRow allCol mask K =
      .ok ((npNonzero (angleSelectionMask ra allRow)).filter
             (fun r => !((npNonzero (angleSelectionMask ca allCol)).all
               (fun c => (List.range K).all (fun k => mask r c k)))),
           (npNonzero (angleSelectionMask ca allCol)).filter
             (fun c => !((npNonzero (angleSelectionMask ra allRow)).all
               (fun r => (List.range K).all (fun k => mask r c k))))) := by
  simp only [hrir_select_angles]
  rw [if_neg h1, if_neg h2, zipSelect_eq_filter, zipSelect_eq_filter]

/-- C1: on every grid, the Grid Selector performs exactly one pruning pass per
axis: a candidate row is retained iff at least one of its cells -- restricted
to the *originally selected* candidate columns, across all radii -- is
non-missing, and a candidate column is retained iff at least one of its cells
restricted to the *originally selected* candidate rows is non-missing.  Both
characterisations refer to the unpruned opposite axis, so the pruning is a
single pass and not a fixed-point iteration. -/
theorem grid_selector_single_pass_pruning (ra ca : Option (List ℚ))
    (allRow allCol : List ℚ) (mask : ℕ → ℕ → ℕ → Bool) (K : ℕ) (ri ci : List ℕ)
    (hok : hrir_select_angles ra ca allRow allCol mask K = .ok (ri, ci)) :
    (∀ r, r ∈ ri ↔ r ∈ npNonzero (angleSelectionMask ra allRow) ∧
       ∃ c ∈ npNonzero (angleSelectionMask ca allCol), ∃ k < K, mask r c k = false) ∧
    (∀ c, c ∈ ci ↔ c ∈ npNonzero (angleSelectionMask ca allCol) ∧
       ∃ r ∈ npNonzero (angleSelectionMask ra allRow), ∃ k < K, mask r c k = false) := by
  by_cases h1 : ra.isSome ∧ ¬ (angleSelectionMask ra allRow).any id
  · rw [hrir_select_angles, if_pos h1] at hok
    exact absurd hok (by simp)
  by_cases h2 : ca.isSome ∧ ¬ (angleSelectionMask ca allCol).any id
  · rw [hrir_select_angles] at hok
    rw [if_neg h1] at hok
    simp only at hok
    rw [if_pos h2] at hok
    exact absurd hok (by simp)
  rw [hrir_select_angles_ok ra ca allRow allCol mask K h1 h2] at hok
  have hpair := Except.ok.inj hok
  have hri : ri = (npNonzero (angleSelectionMask ra allRow)).filter
      (fun r => !((npNonzero (angleSelectionMask ca allCol)).all
        (fun c => (List.range K).all (fun k => mask r c k)))) := congrArg Prod.fst hpair.symm
  have hci : ci = (npNonzero (angleSelectionMask ca allCol)).filter
      (fun c => !((npNonzero (angleSelectionMask ra allRow)).all
        (fun r => (List.range K).all (fun k => mask r c k)))) := congrArg Prod.snd hpair.symm
  subst hri
  subst hci
  constructor
  · intro r
    simp only [List.mem_filter, Bool.not_eq_true', List.all_eq_false, List.all_eq_true,
      List.mem_range, not_forall, Bool.not_eq_true]
    constructor
    · rintro ⟨hr, c, hc, k, hk, hm⟩
      exact ⟨hr, c, hc, k, hk, hm⟩
    · rintro ⟨hr, c, hc, k, hk, hm⟩
      exact ⟨hr, c, hc, k, hk, hm⟩
  · intro c
    simp only [List.mem_filter, Bool.not_eq_true', List.all_eq_false, List.all_eq_true,
      List.mem_range, not_forall, Bool.not_eq_true]
    constructor
    · rintro ⟨hc, r, hr, k, hk, hm⟩
      exact ⟨hc, r, hr, k, hk, hm⟩
    · rintro ⟨hc, r, hr, k, hk, hm⟩
      exact ⟨hc, r, hr, k, hk, hm⟩

/-- Witness for C1 at a concrete grid: rows `{0, 45, 90}`, request `{0, 45}`,
one column, one radius, and the row at angle `45` entirely missing, so the
pruning drops it. -/
theorem grid_selector_single_pass_pruning_witness :
    hrir_select_angles (some [0, 45]) none [0, 45, 90] [0]
      (fun r _ _ => decide (r = 1)) 1 = .ok ([0], [0]) ∧
    (∀ r, r ∈ [0] ↔ r ∈ npNonzero (angleSelectionMask (some [0, 45]) [0, 45, 90]) ∧
       ∃ c ∈ npNonzero (angleSelectionMask none [0]), ∃ k < 1,
         (fun r _ _ => decide (r = 1)) r c k = false) ∧
    (∀ c, c ∈ [0] ↔ c ∈ npNonzero (angleSelectionMask none [0]) ∧
       ∃ r ∈ npNonzero (angleSelectionMask (some [0, 45]) [0, 45, 90]), ∃ k < 1,
         (fun r _ _ => decide (r = 1)) r c k = false) := by
  refine ⟨by decide, ?_⟩
  exact grid_selector_single_pass_pruning (some [0, 45]) none [0, 45, 90] [0]
    (fun r _ _ => decide (r = 1)) 1 [0] [0] (by decide)

/-- C5: an angle request of `None` selects every index of the axis; an explicit
request selects exactly the indices whose angle is `np.isclose` to at least one
requested value; a non-empty request that matches no grid angle makes the
selector raise the no-matching-angles `ValueError`; and the index lists finally
returned are strictly ascending. -/
theorem angle_selection_candidates (allRow allCol : List ℚ)
    (mask : ℕ → ℕ → ℕ → Bool) (K : ℕ) (req : List ℚ) (ra ca : Option (List ℚ))
    (ri ci : List ℕ) (hreq : req ≠ [])
    (hok : hrir_select_angles ra ca allRow allCol mask K = .ok (ri, ci)) :
    npNonzero (angleSelectionMask none allRow) = List.range allRow.length ∧
    npNonzero (angleSelectionMask (some req) allRow)
      = (List.range allRow.length).filter
          (fun i => req.any (fun b => npIsClose (allRow.getD i 0) b)) ∧
    ((∀ a ∈ allRow, ∀ b ∈ req, npIsClose a b = false) →
      hrir_select_angles (some req) ca allRow allCol mask K = .error noMatchingAnglesMsg) ∧
    ((∀ a ∈ allCol, ∀ b ∈ req, npIsClose a b = false) →
      hrir_select_angles none (some req) allRow allCol mask K = .error noMatchingAnglesMsg) ∧
    List.Pairwise (· < ·) ri ∧ List.Pairwise (· < ·) ci := by
  have hmapnone : angleSelectionMask none allRow = allRow.map (fun _ => true) := rfl
  refine ⟨?_, ?_, ?_, ?_, ?_⟩
  · rw [hmapnone, npNonzero_map (0 : ℚ)]
    simp
  · exact npNonzero_map 0 allRow _
  · intro hno
    have hany : (angleSelectionMask (some req) allRow).any id = false := by
      simp only [angleSelectionMask, List.any_eq_false]
      intro a ha
      rw [List.mem_map] at ha
      obtain ⟨x, hx, rfl⟩ := ha
      simp only [id_eq, Bool.not_eq_true, List.any_eq_false]
      intro b hb
      exact hno x hx b hb
    rw [hrir_select_angles, if_pos ⟨rfl, by simp [hany]⟩]
  · intro hno
    have hany : (angleSelectionMask (some req) allCol).any id = false := by
      simp only [angleSelectionMask, List.any_eq_false]
      intro a ha
      rw [List.mem_map] at ha
      obtain ⟨x, hx, rfl⟩ := ha
      simp only [id_eq, Bool.not_eq_true, List.any_eq_false]
      intro b hb
      exact hno x hx b hb
    have hnone : ¬ ((none : Option (List ℚ)).isSome ∧
        ¬ (angleSelectionMask none allRow).any id) := by
      simp [Option.isSome]
    rw [hrir_select_angles]
    rw [if_neg hnone]
    simp only
    rw [if_pos ⟨rfl, by simp [hany]⟩]
  · by_cases h1 : ra.isSome ∧ ¬ (angleSelectionMask ra allRow).any id
    · rw [hrir_select_angles, if_pos h1] at hok
      exact absurd hok (by simp)
    by_cases h2 : ca.isSome ∧ ¬ (angleSelectionMask ca allCol).any id
    · rw [hrir_select_angles] at hok
      rw [if_neg h1] at hok
      simp only at hok
      rw [if_pos h2] at hok
      exact absurd hok (by simp)
    rw [hrir_select_angles_ok ra ca allRow allCol mask K h1 h2] at hok
    have hpair := Except.ok.inj hok
    constructor
    · rw [show ri = _ from congrArg Prod.fst hpair.symm]
      exact List.Pairwise.filter _ (npNonzero_sorted _)
    · rw [show ci = _ from congrArg Prod.snd hpair.symm]
      exact List.Pairwise.filter _ (npNonzero_sorted _)

/-- Witness for C5 at the grid of the spec example: rows `{0, 45, 90}`,
request `{0, 45}`, dense mask; the selector returns exactly the two matching
row indices, ascending. -/
theorem angle_selection_candidates_witness :
    ([0, 45] : List ℚ) ≠ [] ∧
    hrir_select_angles (some [0, 45]) none [0, 45, 90] [0]
      (fun _ _ _ => false) 1 = .ok ([0, 1], [0]) ∧
    (npNonzero (angleSelectionMask none [0, 45, 90]) = List.range 3 ∧
     npNonzero (angleSelectionMask (some [0, 45]) [0, 45, 90])
       = (List.range 3).filter
           (fun i => [0, 45].any (fun b => npIsClose (([0, 45, 90] : List ℚ).getD i 0) b)) ∧
     ((∀ a ∈ ([0, 45, 90] : List ℚ), ∀ b ∈ ([0, 45] : List ℚ), npIsClose a b = false) →
       hrir_select_angles (some [0, 45]) none [0, 45, 90] [0]
         (fun _ _ _ => false) 1 = .error noMatchingAnglesMsg) ∧
     ((∀ a ∈ ([0] : List ℚ), ∀ b ∈ ([0, 45] : List ℚ), npIsClose a b = false) →
       hrir_select_angles none (some [0, 45]) [0, 45, 90] [0]
         (fun _ _ _ => false) 1 = .error noMatchingAnglesMsg) ∧
     List.Pairwise (· < ·) [0, 1] ∧ List.Pairwise (· < ·) [0]) := by
  refine ⟨by decide, by decide, ?_⟩
  exact angle_selection_candidates [0, 45, 90] [0] (fun _ _ _ => false) 1 [0, 45]
    (some [0, 45]) none [0, 1] [0] (by decide) (by decide)

lemma npArgmaxEq_unique_spec {x : ℚ} {l0 : List ℚ} (hx : x ∈ l0) :
    npArgmaxEq x (npUnique l0) < (npUnique l0).length ∧
    (npUnique l0).getD (npArgmaxEq x (npUnique l0)) 0 = x ∧
    ∀ j, j < (npUnique l0).length → (npUnique l0).getD j 0 = x →
      j = npArgmaxEq x (npUnique l0) := by
  have hmem : x ∈ npUnique l0 := mem_npUnique.mpr hx
  refine ⟨npArgmaxEq_lt_length hmem, npArgmaxEq_getD hmem, ?_⟩
  intro j hj hgd
  have h1 : (npUnique l0)[j] = x := by
    rw [← List.getD_eq_getElem _ 0 hj]
    exact hgd
  have hlt := npArgmaxEq_lt_length hmem
  have h2 : (npUnique l0)[npArgmaxEq x (npUnique l0)] = x := by
    rw [← List.getD_eq_getElem _ 0 hlt]
    exact npArgmaxEq_getD hmem
  exact ((npUnique_nodup l0).getElem_inj_iff).mp (h1.trans h2.symm)

/-- C3: every raw measurement index is mapped to exactly one grid cell -- the
triple of indices into the unique row-angle, column-angle and radius arrays
found by exact match on the rounded coordinates (exact match exists and is
unique because the unique arrays are duplicate-free) -- and the final missing
mask is `false` exactly at the cells occupied by some raw measurement or marked
present by the pole bookkeeping, and `true` everywhere else. -/
theorem reconciler_cells_and_mask (prec : ℕ) (ps : List (ℚ × ℚ × ℚ)) :
    (positionMapCells prec ps).length = ps.length ∧
    (∀ i, i < ps.length →
      ((positionMapCells prec ps).getD i (0, 0, 0)).1 < (uniqueRowAngles prec ps).length ∧
      (uniqueRowAngles prec ps).getD ((positionMapCells prec ps).getD i (0, 0, 0)).1 0
        = ((quantisePositions prec ps).getD i (0, 0, 0)).1 ∧
      (∀ j, j < (uniqueRowAngles prec ps).length →
        (uniqueRowAngles prec ps).getD j 0 = ((quantisePositions prec ps).getD i (0, 0, 0)).1 →
        j = ((positionMapCells prec ps).getD i (0, 0, 0)).1) ∧
      ((positionMapCells prec ps).getD i (0, 0, 0)).2.1 < (uniqueColumnAngles prec ps).length ∧
      (uniqueColumnAngles prec ps).getD ((positionMapCells prec ps).getD i (0, 0, 0)).2.1 0
        = ((quantisePositions prec ps).getD i (0, 0, 0)).2.1 ∧
      (∀ j, j < (uniqueColumnAngles prec ps).length →
        (uniqueColumnAngles prec ps).getD j 0
          = ((quantisePositions prec ps).getD i (0, 0, 0)).2.1 →
        j = ((positionMapCells prec ps).getD i (0, 0, 0)).2.1) ∧
      ((positionMapCells prec ps).getD i (0, 0, 0)).2.2 < (uniqueRadii prec ps).length ∧
      (uniqueRadii prec ps).getD ((positionMapCells prec ps).getD i (0, 0, 0)).2.2 0
        = ((quantisePositions prec ps).getD i (0, 0, 0)).2.2 ∧
      (∀ j, j < (uniqueRadii prec ps).length →
        (uniqueRadii prec ps).getD j 0 = ((quantisePositions prec ps).getD i (0, 0, 0)).2.2 →
        j = ((positionMapCells prec ps).getD i (0, 0, 0)).2.2)) ∧
    (∀ r c k, (finalPositionMask prec ps r c k = false ↔
      ((r, c, k) ∈ positionMapCells prec ps ∨
       (c = (uniqueColumnAngles prec ps).length - 1 ∧ singleEndMaskOf prec ps k = true) ∨
       (c = 0 ∧ singleStartMaskOf prec ps k = true)))) ∧
    map_sofa_position_order_to_matrix prec ps =
      ⟨uniqueRowAngles prec ps, uniqueColumnAngles prec ps, uniqueRadii prec ps,
       finalPositionMask prec ps, positionMapCells prec ps,
       singleStartMaskOf prec ps, startPoleIdxOf prec ps,
       singleEndMaskOf prec ps, endPoleIdxOf prec ps⟩ := by
  refine ⟨by simp [positionMapCells, quantisePositions], ?_, ?_, rfl⟩
  · intro i hi
    have hiq : i < (quantisePositions prec ps).length := by
      simpa [quantisePositions] using hi
    have hicell : i < (positionMapCells prec ps).length := by
      simpa [positionMapCells] using hiq
    have hq : (quantisePositions prec ps).getD i (0, 0, 0)
        = (quantisePositions prec ps)[i] := List.getD_eq_getElem _ _ hiq
    have hcell : (positionMapCells prec ps).getD i (0, 0, 0)
        = (npArgmaxEq ((quantisePositions prec ps)[i]).1 (uniqueRowAngles prec ps),
           npArgmaxEq ((quantisePositions prec ps)[i]).2.1 (uniqueColumnAngles prec ps),
           npArgmaxEq ((quantisePositions prec ps)[i]).2.2 (uniqueRadii prec ps)) := by
      rw [List.getD_eq_getElem _ _ hicell]
      simp [positionMapCells]
    have hm1 : ((quantisePositions prec ps)[i]).1
        ∈ (quantisePositions prec ps).map (fun p => p.1) :=
      List.mem_map_of_mem _ (List.getElem_mem hiq)
    have hm2 : ((quantisePositions prec ps)[i]).2.1
        ∈ (quantisePositions prec ps).map (fun p => p.2.1) :=
      List.mem_map_of_mem _ (List.getElem_mem hiq)
    have hm3 : ((quantisePositions prec ps)[i]).2.2
        ∈ (quantisePositions prec ps).map (fun p => p.2.2) :=
      List.mem_map_of_mem _ (List.getElem_mem hiq)
    obtain ⟨ha1, hb1, hc1⟩ := npArgmaxEq_unique_spec hm1
    obtain ⟨ha2, hb2, hc2⟩ := npArgmaxEq_unique_spec hm2
    obtain ⟨ha3, hb3, hc3⟩ := npArgmaxEq_unique_spec hm3
    rw [hcell, hq]
    exact ⟨ha1, hb1, hc1, ha2, hb2, hc2, ha3, hb3, hc3⟩
  · intro r c k
    unfold finalPositionMask maskAfterEndPole basePositionMask
    by_cases hs : c = 0 ∧ singleStartMaskOf prec ps k
    · rw [if_pos hs]
      simp [hs.1, hs.2]
    · rw [if_neg hs]
      by_cases he : c = (uniqueColumnAngles prec ps).length - 1 ∧ singleEndMaskOf prec ps k
      · rw [if_pos he]
        simp [he.1, he.2]
      · rw [if_neg he, scatterMask_false_iff]
        constructor
        · exact fun h => Or.inl h
        · rintro (h | h | h)
          · exact h
          · exact absurd h he
          · exact absurd h hs

/-- Witness for C3 at a concrete two-position set. -/
theorem reconciler_cells_and_mask_witness :
    (positionMapCells 3 [(0, 90, 1), (90, 0, 1)]).length = 2 ∧
    (finalPositionMask 3 [(0, 90, 1), (90, 0, 1)] 1 1 0 = false ↔
      ((1, 1, 0) ∈ positionMapCells 3 [(0, 90, 1), (90, 0, 1)] ∨
       (1 = (uniqueColumnAngles 3 [(0, 90, 1), (90, 0, 1)]).length - 1 ∧
        singleEndMaskOf 3 [(0, 90, 1), (90, 0, 1)] 0 = true) ∨
       (1 = 0 ∧ singleStartMaskOf 3 [(0, 90, 1), (90, 0, 1)] 0 = true))) := by
  obtain ⟨h1, _, h3, _⟩ := reconciler_cells_and_mask 3 [(0, 90, 1), (90, 0, 1)]
  exact ⟨h1, h3 1 1 0⟩

lemma find?_range_eq_some {q : ℕ → Bool} {n j : ℕ} (hj : j < n) (hq : q j = true)
    (hlt : ∀ i, i < j → q i = false) : (List.range n).find? q = some j := by
  have hsplit : List.range n = List.range j ++ (List.range (n - j)).map (j + ·) := by
    rw [← List.range_add]
    congr 1
    omega
  rw [hsplit, List.find?_append]
  have h1 : (List.range j).find? q = none := by
    rw [List.find?_eq_none]
    intro x hx
    rw [List.mem_range] at hx
    simp [hlt x hx]
  rw [h1, Option.none_or]
  have hn : n - j = (n - j - 1) + 1 := by omega
  rw [hn, List.range_succ_eq_map, List.map_cons]
  rw [List.find?_cons_of_pos _ (by simpa using hq)]
  simp

lemma filter_range_singleton {p : ℕ → Bool} {n j : ℕ}
    (h : (List.range n).filter p = [j]) :
    j < n ∧ p j = true ∧ ∀ i, i < j → p i = false := by
  have hj : j ∈ (List.range n).filter p := by
    rw [h]
    exact List.mem_singleton_self j
  rw [List.mem_filter, List.mem_range] at hj
  refine ⟨hj.1, hj.2, ?_⟩
  intro i hij
  by_contra hpi
  have hpi' : p i = true := by
    cases hp : p i
    · exact absurd hp hpi
    · rfl
  have hmem : i ∈ (List.range n).filter p :=
    List.mem_filter.mpr ⟨List.mem_range.mpr (lt_trans hij hj.1), hpi'⟩
  rw [h, List.mem_singleton] at hmem
  omega

lemma npIsClose_neg90_not_90 {x : ℚ} (h : npIsClose x (-90) = true) :
    npIsClose x 90 = false := by
  simp only [npIsClose, decide_eq_true_eq] at h
  simp only [npIsClose, decide_eq_false_iff_not]
  intro hc
  rw [abs_le] at h hc
  have h1 := h.2
  have h2 := hc.1
  norm_num at h1 h2
  linarith

/-- When the first column angle is close to `-90`, the line-136 update of the
last column does not touch column `0`: either there are at least two columns,
or the single column cannot also be close to `90`. -/
lemma maskAfterEndPole_col0 (prec : ℕ) (ps : List (ℚ × ℚ × ℚ))
    (hstart : startPoleClose prec ps = true) (r k : ℕ) :
    maskAfterEndPole prec ps r 0 k = basePositionMask prec ps r 0 k := by
  unfold maskAfterEndPole
  by_cases hC : (uniqueColumnAngles prec ps).length - 1 = 0
  · rcases Nat.eq_zero_or_pos (uniqueColumnAngles prec ps).length with hz | hpos
    · exfalso
      have hnil : uniqueColumnAngles prec ps = [] := List.length_eq_zero.mp hz
      rw [startPoleClose, hnil] at hstart
      exact absurd hstart (by decide)
    · have hend : endPoleClose prec ps = false := by
        rw [endPoleClose, hC]
        exact npIsClose_neg90_not_90 (by rw [startPoleClose] at hstart; exact hstart)
      have hse : singleEndMaskOf prec ps k = false := by
        rw [singleEndMaskOf]
        simp [hend]
      rw [if_neg]
      rintro ⟨h0, hs⟩
      rw [hse] at hs
      exact absurd hs (by simp)
  · rw [if_neg]
    rintro ⟨h0, _⟩
    exact hC (h0 ▸ rfl)

/-- Counterexample to C4 as stated: a grid with radii `{1, 2}`, rows `{0, 90}`
and columns `{0, 90}` where only row `0` has data at the pole column (at radius
`1` only).  Exactly one row has data at the pole column, yet row `1` remains
missing there at radius index `1`, because the code evaluates the
single-row condition per radius (datapoint.py line 134), not across all radii. -/
theorem pole_sharing_counterexample :
    (uniqueColumnAngles 3 [(0, 0, 1), (90, 0, 1), (0, 90, 1), (0, 0, 2), (90, 0, 2)]).getD
      ((uniqueColumnAngles 3 [(0, 0, 1), (90, 0, 1), (0, 90, 1), (0, 0, 2), (90, 0, 2)]).length - 1) 0
      = 90 ∧
    ((List.range (uniqueRowAngles 3 [(0, 0, 1), (90, 0, 1), (0, 90, 1), (0, 0, 2), (90, 0, 2)]).length).filter
      (fun r => (List.range (uniqueRadii 3 [(0, 0, 1), (90, 0, 1), (0, 90, 1), (0, 0, 2), (90, 0, 2)]).length).any
        (fun k => decide ((r, (uniqueColumnAngles 3 [(0, 0, 1), (90, 0, 1), (0, 90, 1), (0, 0, 2), (90, 0, 2)]).length - 1, k)
          ∈ positionMapCells 3 [(0, 0, 1), (90, 0, 1), (0, 90, 1), (0, 0, 2), (90, 0, 2)])))).length = 1 ∧
    finalPositionMask 3 [(0, 0, 1), (90, 0, 1), (0, 90, 1), (0, 0, 2), (90, 0, 2)] 1
      ((uniqueColumnAngles 3 [(0, 0, 1), (90, 0, 1), (0, 90, 1), (0, 0, 2), (90, 0, 2)]).length - 1) 1
      = true := by
  decide

/-- At the last column, when the shared-pole flag holds at radius `k`, the
replicated matrix does not depend on the row index. -/
lemma applyPoleReplication_end_const (g : SofaGrid) (m : ℕ → ℕ → ℕ → ℕ → ℚ)
    (k l r r' : ℕ) (hE : g.singleEndMask k = true) :
    applyPoleReplication g m r (g.columnAngles.length - 1) k l
    = applyPoleReplication g m r' (g.columnAngles.length - 1) k l := by
  simp only [applyPoleReplication, true_and]
  conv_lhs => rw [if_pos hE]
  conv_rhs => rw [if_pos hE]

/-- At column `0`, when the shared-pole flag holds at radius `k`, the
replicated matrix does not depend on the row index. -/
lemma applyPoleReplication_start_const (g : SofaGrid) (m : ℕ → ℕ → ℕ → ℕ → ℚ)
    (k l r r' : ℕ) (hS : g.singleStartMask k = true) :
    applyPoleReplication g m r 0 k l = applyPoleReplication g m r' 0 k l := by
  simp only [applyPoleReplication, true_and]
  by_cases houter : (0 : ℕ) = g.columnAngles.length - 1 ∧ g.singleEndMask k = true
  · conv_lhs => rw [if_pos houter]
    conv_rhs => rw [if_pos houter]
  · conv_lhs => rw [if_neg houter, if_pos hS]
    conv_rhs => rw [if_neg houter, if_pos hS]

/-- C4 (amended): on a *single-radius* grid, when the last column angle is
close to `90` and exactly one row `r0` is occupied at that pole column, the
reconciler marks every row non-missing at that column, records `r0` as the
pole source index, and the scattered-and-replicated signal matrix agrees with
row `r0` at the pole column for every row; symmetrically for a `-90` pole at
column index `0`.  (On multi-radius grids the sharing decision is made per
radius, and the flat `argmax` source index no longer denotes a row.) -/
theorem pole_sharing_single_radius (prec : ℕ) (ps : List (ℚ × ℚ × ℚ))
    (hK : (uniqueRadii prec ps).length = 1) :
    (∀ r0, endPoleClose prec ps = true →
      (List.range (uniqueRowAngles prec ps).length).filter
        (fun r => decide ((r, (uniqueColumnAngles prec ps).length - 1, 0)
          ∈ positionMapCells prec ps)) = [r0] →
      (∀ r, finalPositionMask prec ps r ((uniqueColumnAngles prec ps).length - 1) 0 = false) ∧
      endPoleIdxOf prec ps = r0 ∧
      (∀ (hrirs : List (List ℚ)) (init : ℕ → ℕ → ℕ → ℕ → ℚ) (r l : ℕ),
        applyPoleReplication (map_sofa_position_order_to_matrix prec ps)
          (scatterHrirs (positionMapCells prec ps) hrirs init)
          r ((uniqueColumnAngles prec ps).length - 1) 0 l
        = applyPoleReplication (map_sofa_position_order_to_matrix prec ps)
            (scatterHrirs (positionMapCells prec ps) hrirs init)
            r0 ((uniqueColumnAngles prec ps).length - 1) 0 l)) ∧
    (∀ r0, startPoleClose prec ps = true →
      (List.range (uniqueRowAngles prec ps).length).filter
        (fun r => decide ((r, 0, 0) ∈ positionMapCells prec ps)) = [r0] →
      (∀ r, finalPositionMask prec ps r 0 0 = false) ∧
      startPoleIdxOf prec ps = r0 ∧
      (∀ (hrirs : List (List ℚ)) (init : ℕ → ℕ → ℕ → ℕ → ℚ) (r l : ℕ),
        applyPoleReplication (map_sofa_position_order_to_matrix prec ps)
          (scatterHrirs (positionMapCells prec ps) hrirs init) r 0 0 l
        = applyPoleReplication (map_sofa_position_order_to_matrix prec ps)
            (scatterHrirs (positionMapCells prec ps) hrirs init) r0 0 0 l)) := by
  constructor
  · intro r0 hclose hfilter
    obtain ⟨hr0R, hp, hmin⟩ := filter_range_singleton hfilter
    rw [decide_eq_true_eq] at hp
    have hcong : ∀ x ∈ List.range (uniqueRowAngles prec ps).length,
        (decide (basePositionMask prec ps x ((uniqueColumnAngles prec ps).length - 1) 0 = false))
        = (decide ((x, (uniqueColumnAngles prec ps).length - 1, 0)
            ∈ positionMapCells prec ps)) := by
      intro x _
      simp only [decide_eq_decide]
      exact scatterMask_false_iff (positionMapCells prec ps) x
        ((uniqueColumnAngles prec ps).length - 1) 0
    have hcount : countNonMissing (basePositionMask prec ps)
        ((uniqueColumnAngles prec ps).length - 1) 0 (uniqueRowAngles prec ps).length = 1 := by
      unfold countNonMissing
      rw [List.filter_congr hcong, hfilter]
      rfl
    have hE : singleEndMaskOf prec ps 0 = true := by
      rw [singleEndMaskOf]
      simp [hclose, hcount]
    refine ⟨?_, ?_, ?_⟩
    · intro r
      unfold finalPositionMask
      by_cases h0 : (uniqueColumnAngles prec ps).length - 1 = 0 ∧
          singleStartMaskOf prec ps 0 = true
      · rw [if_pos h0]
      · rw [if_neg h0]
        unfold maskAfterEndPole
        rw [if_pos ⟨rfl, hE⟩]
    · rw [endPoleIdxOf, if_pos hclose]
      unfold flatArgmaxNonMissing
      rw [hK, Nat.mul_one]
      rw [find?_range_eq_some hr0R ?hq ?hlt]
      case hq =>
        simp only [Nat.div_one, Nat.mod_one, decide_eq_true_eq]
        exact (scatterMask_false_iff _ _ _ _).mpr hp
      case hlt =>
        intro i hi
        simp only [Nat.div_one, Nat.mod_one, decide_eq_false_iff_not]
        intro hbase
        have hmem := (scatterMask_false_iff _ _ _ _).mp hbase
        have hdec := hmin i hi
        rw [decide_eq_false_iff_not] at hdec
        exact hdec hmem
    · intro hrirs init r l
      exact applyPoleReplication_end_const (map_sofa_position_order_to_matrix prec ps)
        (scatterHrirs (positionMapCells prec ps) hrirs init) 0 l r r0 hE
  · intro r0 hstart hfilter
    obtain ⟨hr0R, hp, hmin⟩ := filter_range_singleton hfilter
    rw [decide_eq_true_eq] at hp
    have hcong : ∀ x ∈ List.range (uniqueRowAngles prec ps).length,
        (decide (maskAfterEndPole prec ps x 0 0 = false))
        = (decide ((x, 0, 0) ∈ positionMapCells prec ps)) := by
      intro x _
      rw [maskAfterEndPole_col0 prec ps hstart x 0]
      simp only [decide_eq_decide]
      exact scatterMask_false_iff (positionMapCells prec ps) x 0 0
    have hcount : countNonMissing (maskAfterEndPole prec ps) 0 0
        (uniqueRowAngles prec ps).length = 1 := by
      unfold countNonMissing
      rw [List.filter_congr hcong, hfilter]
      rfl
    have hS : singleStartMaskOf prec ps 0 = true := by
      rw [singleStartMaskOf]
      simp [hstart, hcount]
    refine ⟨?_, ?_, ?_⟩
    · intro r
      unfold finalPositionMask
      rw [if_pos ⟨rfl, hS⟩]
    · rw [startPoleIdxOf, if_pos hstart]
      unfold flatArgmaxNonMissing
      rw [hK, Nat.mul_one]
      rw [find?_range_eq_some hr0R ?hq ?hlt]
      case hq =>
        simp only [Nat.div_one, Nat.mod_one, decide_eq_true_eq]
        rw [maskAfterEndPole_col0 prec ps hstart r0 0]
        exact (scatterMask_false_iff _ _ _ _).mpr hp
      case hlt =>
        intro i hi
        simp only [Nat.div_one, Nat.mod_one, decide_eq_false_iff_not]
        rw [maskAfterEndPole_col0 prec ps hstart i 0]
        intro hbase
        have hmem := (scatterMask_false_iff _ _ _ _).mp hbase
        have hdec := hmin i hi
        rw [decide_eq_false_iff_not] at hdec
        exact hdec hmem
    · intro hrirs init r l
      exact applyPoleReplication_start_const (map_sofa_position_order_to_matrix prec ps)
        (scatterHrirs (positionMapCells prec ps) hrirs init) 0 l r r0 hS

/-- Witness for the amended C4 on a concrete single-radius grid with a `90`
pole measured only at row angle `0`. -/
theorem pole_sharing_single_radius_witness :
    (uniqueRadii 3 [(0, 90, 1), (90, 0, 1), (0, 0, 1)]).length = 1 ∧
    endPoleClose 3 [(0, 90, 1), (90, 0, 1), (0, 0, 1)] = true ∧
    (List.range (uniqueRowAngles 3 [(0, 90, 1), (90, 0, 1), (0, 0, 1)]).length).filter
      (fun r => decide ((r, (uniqueColumnAngles 3 [(0, 90, 1), (90, 0, 1), (0, 0, 1)]).length - 1, 0)
        ∈ positionMapCells 3 [(0, 90, 1), (90, 0, 1), (0, 0, 1)])) = [0] ∧
    ((∀ r, finalPositionMask 3 [(0, 90, 1), (90, 0, 1), (0, 0, 1)] r
        ((uniqueColumnAngles 3 [(0, 90, 1), (90, 0, 1), (0, 0, 1)]).length - 1) 0 = false) ∧
     endPoleIdxOf 3 [(0, 90, 1), (90, 0, 1), (0, 0, 1)] = 0 ∧
     (∀ (hrirs : List (List ℚ)) (init : ℕ → ℕ → ℕ → ℕ → ℚ) (r l : ℕ),
       applyPoleReplication (map_sofa_position_order_to_matrix 3 [(0, 90, 1), (90, 0, 1), (0, 0, 1)])
         (scatterHrirs (positionMapCells 3 [(0, 90, 1), (90, 0, 1), (0, 0, 1)]) hrirs init)
         r ((uniqueColumnAngles 3 [(0, 90, 1), (90, 0, 1), (0, 0, 1)]).length - 1) 0 l
       = applyPoleReplication (map_sofa_position_order_to_matrix 3 [(0, 90, 1), (90, 0, 1), (0, 0, 1)])
           (scatterHrirs (positionMapCells 3 [(0, 90, 1), (90, 0, 1), (0, 0, 1)]) hrirs init)
           0 ((uniqueColumnAngles 3 [(0, 90, 1), (90, 0, 1), (0, 0, 1)]).length - 1) 0 l)) := by
  refine ⟨by decide, by decide, by decide, ?_⟩
  exact (pole_sharing_single_radius 3 [(0, 90, 1), (90, 0, 1), (0, 0, 1)] (by decide)).1
    0 (by decide) (by decide)

/-- Counterexample to C6 as stated: with first selected row angle
`-179.999` -- which is *not* `-180` but is within `np.isclose` tolerance of
it -- the spherical mirroring holds the first row fixed instead of flipping
the whole row axis. -/
theorem mirror_minus180_counterexample :
    (([-179999/1000, 0, 90] : List ℚ).headD 0 ≠ -180) ∧
    mirrorHrir false [-179999/1000, 0, 90] ([[0], [1], [2]] : List (List ℚ))
      = [[0], [2], [1]] ∧
    mirrorHrir false [-179999/1000, 0, 90] ([[0], [1], [2]] : List (List ℚ))
      ≠ ([[0], [1], [2]] : List (List ℚ)).reverse := by
  decide

/-- C6 (amended): in spherical layout the mirrored result is flipped along the
row axis, except that when the first selected row angle is within `np.isclose`
tolerance of `-180` (not only when it equals `-180` exactly) that first row is
held fixed and only the remaining rows are reversed; in interaural layout every
row is reversed (flip along the column axis) unconditionally. -/
theorem mirror_flip (az : List ℚ) (m : List (List ℚ)) :
    (npIsClose (az.headD 0) (-180) = false →
      ∀ i, i < m.length →
        (mirrorHrir false az m).getD i [] = m.getD (m.length - 1 - i) []) ∧
    (npIsClose (az.headD 0) (-180) = true →
      ((mirrorHrir false az m).getD 0 [] = m.getD 0 [] ∧
       ∀ i, 1 ≤ i → i < m.length →
         (mirrorHrir false az m).getD i [] = m.getD (m.length - i) [])) ∧
    (∀ r, (mirrorHrir true az m).getD r [] = (m.getD r []).reverse) := by
  refine ⟨?_, ?_, ?_⟩
  · intro hcl i hi
    have hcl' : npIsClose (az.head?.getD 0) (-180) = false := by
      simpa using hcl
    have hm : mirrorHrir false az m = m.reverse := by
      simp [mirrorHrir, hcl', npFlipud]
    have hi' : i < m.reverse.length := by simpa using hi
    have hlast : m.length - 1 - i < m.length := by omega
    rw [hm, List.getD_eq_getElem _ _ hi', List.getD_eq_getElem _ _ hlast]
    exact List.getElem_reverse hi'
  · intro hcl
    have hcl' : npIsClose (az.head?.getD 0) (-180) = true := by
      simpa using hcl
    have hm : mirrorHrir false az m = m.take 1 ++ (m.drop 1).reverse := by
      simp [mirrorHrir, hcl', npFlipud]
    constructor
    · cases m with
      | nil =>
        rw [hm]
        rfl
      | cons a t =>
        rw [hm]
        simp
    · intro i h1 hi
      cases m with
      | nil => simp at hi
      | cons a t =>
        have hm2 : mirrorHrir false az (a :: t) = a :: t.reverse := by
          rw [hm]
          simp
        rw [hm2]
        have hi1 : i = (i - 1) + 1 := by omega
        rw [hi1, List.getD_cons_succ]
        have hlen : (a :: t).length = t.length + 1 := rfl
        have hidx : (a :: t).length - ((i - 1) + 1) = (t.length - i) + 1 := by
          rw [hlen]
          omega
        rw [hidx, List.getD_cons_succ]
        have hb1 : i - 1 < t.reverse.length := by
          rw [List.length_reverse]
          rw [hlen] at hi
          omega
        have hb2 : t.length - i < t.length := by
          rw [hlen] at hi
          omega
        rw [List.getD_eq_getElem _ _ hb1, List.getD_eq_getElem _ _ hb2]
        rw [List.getElem_reverse]
        congr 1
        rw [List.length_reverse] at hb1
        omega
  · intro r
    by_cases hr : r < m.length
    · have hr' : r < (m.map List.reverse).length := by simpa using hr
      have hm : mirrorHrir true az m = m.map List.reverse := rfl
      rw [hm, List.getD_eq_getElem _ _ hr', List.getD_eq_getElem _ _ hr,
        List.getElem_map]
    · have hle : m.length ≤ r := Nat.le_of_not_lt hr
      have h1 : (mirrorHrir true az m).getD r [] = [] := by
        have hnone : m[r]? = none := List.getElem?_eq_none hle
        simp [mirrorHrir, npFliplr, hnone]
      have h2 : m.getD r [] = [] := List.getD_eq_default _ _ hle
      rw [h1, h2]
      rfl

/-- Witness for the amended C6 on the spec example: spherical rows
`[-180, -90, 0, 90]` mirror to `[row(-180), row(90), row(0), row(-90)]`, and an
interaural matrix has each row reversed. -/
theorem mirror_flip_witness :
    npIsClose (([-180, -90, 0, 90] : List ℚ).headD 0) (-180) = true ∧
    ((mirrorHrir false [-180, -90, 0, 90] ([[0], [1], [2], [3]] : List (List ℚ))).getD 0 []
        = ([[0], [1], [2], [3]] : List (List ℚ)).getD 0 [] ∧
     ∀ i, 1 ≤ i → i < ([[0], [1], [2], [3]] : List (List ℚ)).length →
       (mirrorHrir false [-180, -90, 0, 90] ([[0], [1], [2], [3]] : List (List ℚ))).getD i []
         = ([[0], [1], [2], [3]] : List (List ℚ)).getD
             (([[0], [1], [2], [3]] : List (List ℚ)).length - i) []) := by
  refine ⟨by decide, ?_⟩
  exact (mirror_flip [-180, -90, 0, 90] [[0], [1], [2], [3]]).2.1 (by decide)

/-- Counterexample to C7 as stated: with a single-sample signal (`L = 1`) the
`np.squeeze` of line 238 removes the signal-length dimension as well -- the
output shape of a `2 x 1 x 1 x 1` selection is `[2]`, not the `[2, 1]` that a
never-squeeze-the-signal-axis rule would give. -/
theorem squeeze_counterexample :
    hrirOutputShape 2 1 1 1 = [2] ∧ hrirOutputShape 2 1 1 1 ≠ [2, 1] := by
  decide

/-- C7 (amended): `np.squeeze` removes *every* singleton dimension, the
signal-length axis included; the signal-length dimension survives exactly when
the signal has more than one sample, in which case it trails the squeezed
row/column/radius dimensions. -/
theorem squeeze_all_singletons (numRows numCols numRadii numSamples : ℕ) :
    (numSamples ≠ 1 → hrirOutputShape numRows numCols numRadii numSamples
      = npSqueezeShape [numRows, numCols, numRadii] ++ [numSamples]) ∧
    (numSamples = 1 → hrirOutputShape numRows numCols numRadii numSamples
      = npSqueezeShape [numRows, numCols, numRadii]) := by
  constructor
  · intro h
    simp only [hrirOutputShape, npSqueezeShape, List.filter_cons, List.filter_nil]
    by_cases h1 : numRows = 1 <;> by_cases h2 : numCols = 1 <;>
      by_cases h3 : numRadii = 1 <;> simp [h1, h2, h3, h]
  · intro h
    subst h
    simp [hrirOutputShape, npSqueezeShape, List.filter_cons]

/-- Witness for the amended C7: a `2 x 1 x 1 x 4` selection squeezes to
`[2, 4]`, keeping the 4-sample signal axis. -/
theorem squeeze_all_singletons_witness :
    (4 : ℕ) ≠ 1 ∧ hrirOutputShape 2 1 1 4 = npSqueezeShape [2, 1, 1] ++ [4] :=
  ⟨by decide, (squeeze_all_singletons 2 1 1 4).1 (by decide)⟩

/-- C2 is refuted by the code: an unknown `side` string is never validated --
`0 if side.endswith('left') else 1` silently selects the right-ear channel and
the call returns a result -- and an unknown `domain` string makes line 235
*assign* `ValueError(...)` to the result variable instead of raising it, so
the caller sees an `AttributeError` from `hrir.astype` on line 238, never the
intended `ValueError`. -/
theorem hrir_unknown_domain_side_dispatch :
    hrirCall "up" "time" false = .ok (1, "time", false) ∧
    hrirCall "left" "frequency" false
      = .error (.attributeError
          ("ValueError object has no attribute astype: Unknown domain frequency for HRIR")) ∧
    (∀ msg, hrirCall "left" "frequency" false ≠ .error (.valueError msg)) := by
  refine ⟨by decide, by decide, ?_⟩
  intro msg h
  rw [show hrirCall "left" "frequency" false
      = .error (.attributeError
          ("ValueError object has no attribute astype: Unknown domain frequency for HRIR"))
    from by decide] at h
  have := Except.error.inj h
  simp at this

/-- C8: the `magnitude_db` output is `20*log10` of the magnitudes clipped below
at `floor = max(magnitudes) * resolution`; every output value is therefore
bounded below by the finite `20*log10(floor)` (never `-inf`), and an
exact-zero magnitude produces exactly `20*log10(max) + 20*log10(resolution)`,
i.e. a value `20*log10(resolution)` below the maximum in dB terms. -/
theorem magnitude_db_floor (resolution : ℝ) (mags : List ℝ)
    (hres : 0 < resolution) (hmax : 0 < npMax mags) :
    magnitudeDbTransform resolution mags
      = mags.map (fun m => 20 * Real.logb 10 (npClipMin m (npMax mags * resolution))) ∧
    (∀ x ∈ magnitudeDbTransform resolution mags,
      20 * Real.logb 10 (npMax mags * resolution) ≤ x) ∧
    (∀ m ∈ mags, m = 0 →
      20 * Real.logb 10 (npClipMin m (npMax mags * resolution))
        = 20 * Real.logb 10 (npMax mags) + 20 * Real.logb 10 resolution) := by
  have hfloor : 0 < npMax mags * resolution := mul_pos hmax hres
  refine ⟨rfl, ?_, ?_⟩
  · intro x hx
    rw [magnitudeDbTransform] at hx
    simp only [List.mem_map] at hx
    obtain ⟨m, _, rfl⟩ := hx
    have hlog : Real.logb 10 (npMax mags * resolution)
        ≤ Real.logb 10 (npClipMin m (npMax mags * resolution)) := by
      apply Real.logb_le_logb_of_le (by norm_num) hfloor
      exact le_max_right m (npMax mags * resolution)
    linarith
  · intro m _ h0
    subst h0
    have hclip : npClipMin 0 (npMax mags * resolution) = npMax mags * resolution :=
      max_eq_right (le_of_lt hfloor)
    rw [hclip, Real.logb_mul (ne_of_gt hmax) (ne_of_gt hres)]
    ring

/-- Witness for C8 at `resolution = 1/2` and magnitudes `[0, 1]`. -/
theorem magnitude_db_floor_witness :
    (0 : ℝ) < 1 / 2 ∧ (0 : ℝ) < npMax [0, 1] ∧
    (magnitudeDbTransform (1 / 2) [0, 1]
       = ([0, 1] : List ℝ).map
           (fun m => 20 * Real.logb 10 (npClipMin m (npMax [0, 1] * (1 / 2)))) ∧
     (∀ x ∈ magnitudeDbTransform (1 / 2) [0, 1],
       20 * Real.logb 10 (npMax [0, 1] * (1 / 2)) ≤ x) ∧
     (∀ m ∈ ([0, 1] : List ℝ), m = 0 →
       20 * Real.logb 10 (npClipMin m (npMax [0, 1] * (1 / 2)))
         = 20 * Real.logb 10 (npMax [0, 1]) + 20 * Real.logb 10 (1 / 2))) :=
  ⟨by norm_num, by norm_num [npMax],
   magnitude_db_floor (1 / 2) [0, 1] (by norm_num) (by norm_num [npMax])⟩

/-- C9: with a valid side and a valid field selection, looking up a subject id
absent from the table raises the not-found `ValueError`; a present subject
whose selected fields are all `NaN` raises the no-data `ValueError`; in all
other cases the selected fields are returned. -/
theorem anthropometry_lookup (anth : List AnthRecord) (sid : ℤ) (side : String)
    (select : List String)
    (hside : side = "left" ∨ side = "right" ∨ side = "both")
    (hsel : ∀ s ∈ select, s ∈ anthSelectAll) :
    (anth.find? (fun r => r.id = sid) = none →
      anthropomorphic_data anth sid (some side) (some select)
        = .error (.valueError "Subject id has no anthropomorphic measurements")) ∧
    (∀ rec, anth.find? (fun r => r.id = sid) = some rec →
      ((selectedAnthData rec side select).all (fun x => x = none) = true →
        anthropomorphic_data anth sid (some side) (some select)
          = .error (.valueError "Subject id has no data available for selection")) ∧
      ((selectedAnthData rec side select).all (fun x => x = none) = false →
        anthropomorphic_data anth sid (some side) (some select)
          = .ok (selectedAnthData rec side select))) := by
  have hc1 : (some side = some "left" ∨ some side = some "right" ∨
      some side = some "both") := by
    rcases hside with h | h | h <;> simp [h]
  have hfil : (select.filter (fun s => decide (¬ s ∈ anthSelectAll))) = [] := by
    rw [List.filter_eq_nil_iff]
    intro a ha
    simp [hsel a ha]
  constructor
  · intro hnone
    simp only [anthropomorphic_data, hnone, Option.getD_some]
    rw [if_neg (not_not_intro hc1), if_neg (not_not_intro hfil)]
  · intro rec hrec
    constructor
    · intro hall
      simp only [anthropomorphic_data, hrec, Option.getD_some]
      rw [if_neg (not_not_intro hc1), if_neg (not_not_intro hfil), if_pos hall]
    · intro hall
      simp only [anthropomorphic_data, hrec, Option.getD_some]
      rw [if_neg (not_not_intro hc1), if_neg (not_not_intro hfil),
        if_neg (by simp [hall])]

/-- Witness for C9: a one-row table queried for an absent subject id. -/
theorem anthropometry_lookup_witness :
    (("left" : String) = "left" ∨ ("left" : String) = "right" ∨
      ("left" : String) = "both") ∧
    ([⟨1, [some 2], [], [], none, none, "M"⟩] : List AnthRecord).find?
      (fun r => r.id = 2) = none ∧
    anthropomorphic_data [⟨1, [some 2], [], [], none, none, "M"⟩] 2
      (some "left") (some ["head-torso"])
      = .error (.valueError "Subject id has no anthropomorphic measurements") := by
  refine ⟨by decide, by decide, ?_⟩
  exact (anthropometry_lookup [⟨1, [some 2], [], [], none, none, "M"⟩] 2 "left"
    ["head-torso"] (by decide) (by decide)).1 (by decide)

/-- C10: any side argument outside `{left, right, both}` -- including the
default `None` -- makes `anthropomorphic_data` raise the unknown-side
`ValueError` before touching the table: the result is the same error whatever
the table, the subject id and the selection, pinna fields or not. -/
theorem anthropometry_side_checked_first (anth anth2 : List AnthRecord)
    (sid sid2 : ℤ) (side : Option String) (select select2 : Option (List String))
    (hbad : ¬ (side = some "left" ∨ side = some "right" ∨ side = some "both")) :
    anthropomorphic_data anth sid side select
      = .error (.valueError "Unknown side selector") ∧
    anthropomorphic_data anth sid side select
      = anthropomorphic_data anth2 sid2 side select2 := by
  have h1 : anthropomorphic_data anth sid side select
      = .error (.valueError "Unknown side selector") := by
    simp only [anthropomorphic_data]
    rw [if_pos hbad]
  have h2 : anthropomorphic_data anth2 sid2 side select2
      = .error (.valueError "Unknown side selector") := by
    simp only [anthropomorphic_data]
    rw [if_pos hbad]
  exact ⟨h1, h1.trans h2.symm⟩

/-- Witness for C10: the default `side = None` with a selection containing no
pinna field errors out even though the side would be irrelevant to it. -/
theorem anthropometry_side_checked_first_witness :
    ¬ ((none : Option String) = some "left" ∨ (none : Option String) = some "right" ∨
       (none : Option String) = some "both") ∧
    (anthropomorphic_data [⟨1, [some 2], [], [], some 70, none, "M"⟩] 1 none
       (some ["weight"]) = .error (.valueError "Unknown side selector") ∧
     anthropomorphic_data [⟨1, [some 2], [], [], some 70, none, "M"⟩] 1 none
       (some ["weight"])
       = anthropomorphic_data [] 5 none none) :=
  ⟨by decide,
   anthropometry_side_checked_first [⟨1, [some 2], [], [], some 70, none, "M"⟩] []
     1 5 none (some ["weight"]) none (by decide)⟩
